import Mathlib

/-!
Shallow embedding, in Lean 4, of the command-dispatch core of the
MENU-PYTHON-set-GUI repository (directory `MENU-TEST`), together with
theorems settling the frozen specification claims.

The embedding translates the relevant Python functions:
  * `utils/helpers.py` : `parse_size_string`, `parse_parameters`,
    `safe_eval_expression`, `validate_http_method`, `parse_command_line`,
    `create_response_template`;
  * `core/command_registry.py` : `CommandRegistry` (`register`, `get`,
    `add_alias`, `has_command`);
  * `core/api_manager.py` : `APIManager.call_api` (transport abstracted);
  * `core/menu_app.py` : `MenuApp._process_basic_commands` and
    `MenuApp._process_popup_commands` (handler bodies abstracted).

Python dictionaries are modelled as insertion-ordered association lists
with overwrite-in-place semantics; Python strings are Lean `String`s, with
`str.lower` / `str.strip` / `int(...)` modelled over their ASCII behaviour
(the scripts and constants of the repository are handled identically by
both readings).
-/

/-- Model of Python `str.lower` on one character: ASCII letters `A`-`Z`
map to `a`-`z`, everything else is unchanged. -/
def pyCharLower (c : Char) : Char :=
  if 65 ≤ c.toNat ∧ c.toNat ≤ 90 then Char.ofNat (c.toNat + 32) else c

/-- Model of Python `str.upper` on one character. -/
def pyCharUpper (c : Char) : Char :=
  if 97 ≤ c.toNat ∧ c.toNat ≤ 122 then Char.ofNat (c.toNat - 32) else c

/-- Model of Python `str.lower`. -/
def pyLower (s : String) : String := ⟨s.data.map pyCharLower⟩

/-- Model of Python `str.upper`. -/
def pyUpper (s : String) : String := ⟨s.data.map pyCharUpper⟩

/-- ASCII whitespace, the characters stripped by Python `str.strip()`. -/
def pyIsSpace (c : Char) : Bool :=
  c.toNat = 32 ∨ c.toNat = 9 ∨ c.toNat = 10 ∨ c.toNat = 13 ∨
    c.toNat = 11 ∨ c.toNat = 12

/-- Strip characters satisfying `p` from both ends of a character list,
as Python `str.strip` does. -/
def pyStripGenList (p : Char → Bool) (l : List Char) : List Char :=
  ((l.dropWhile p).reverse.dropWhile p).reverse

/-- Model of Python `str.strip()` (no argument: whitespace). -/
def pyStrip (s : String) : String := ⟨pyStripGenList pyIsSpace s.data⟩

/-- The single-quote character, by code point. -/
def squoteChar : Char := Char.ofNat 39

/-- The double-quote character, by code point. -/
def dquoteChar : Char := Char.ofNat 34

/-- The backslash character, by code point. -/
def bslashChar : Char := Char.ofNat 92

/-- Model of Python `value.strip('"\x27')`: remove every leading and
trailing single- or double-quote character. -/
def pyStripQuotes (s : String) : String :=
  ⟨pyStripGenList (fun c => c = dquoteChar ∨ c = squoteChar) s.data⟩

/-- Model of Python `s.strip(ch)` for a single character argument. -/
def pyStripChar (s : String) (ch : Char) : String :=
  ⟨pyStripGenList (fun c => c = ch) s.data⟩

/-- Split a character list at its first `=`, as Python
`param.split('=', 1)` does; `none` when no `=` occurs (the Python code
guards with `'=' in param`). -/
def splitFirstEq : List Char → Option (List Char × List Char)
  | [] => none
  | c :: rest =>
    if c = '=' then some ([], rest)
    else (splitFirstEq rest).map (fun p => (c :: p.1, p.2))

/-- Substring test on character lists (Python's `sub in s`). -/
def listContainsSub : List Char → List Char → Bool
  | l, pat =>
    pat.isPrefixOf l ||
      match l with
      | [] => false
      | _ :: t => listContainsSub t pat

/-- Substring test on strings (Python's `sub in s`). -/
def containsSubstr (s pat : String) : Bool := listContainsSub s.data pat.data

/-- Lookup in a Python-dict model (`d.get(k)`): first binding of the key
in the association list. -/
def dictGet {α : Type} : List (String × α) → String → Option α
  | [], _ => none
  | (k', v) :: rest, k => if k' = k then some v else dictGet rest k

/-- Membership in a Python-dict model (`k in d`). -/
def dictMem {α : Type} (m : List (String × α)) (k : String) : Bool :=
  (dictGet m k).isSome

/-- Update in a Python-dict model (`d[k] = v`): overwrite in place when
the key exists, append otherwise, preserving insertion order. -/
def dictInsert {α : Type} : List (String × α) → String → α → List (String × α)
  | [], k, v => [(k, v)]
  | (k', v') :: rest, k, v =>
    if k' = k then (k', v) :: rest else (k', v') :: dictInsert rest k v

/-- Embedding of `core/command_registry.py`, class `CommandRegistry`:
`handlers` maps lowercased command names to handler callables (the
handler type `H` is abstract — handler bodies are treated as abstract callables),
`aliases` maps lowercased alias names to lowercased canonical names. -/
structure CommandRegistry (H : Type) where
  handlers : List (String × H)
  aliases : List (String × String)
deriving DecidableEq

namespace CommandRegistry

/-- Embedding of `CommandRegistry.register` (the decorator stores the
function under the lowercased name, silently overwriting). -/
def register {H : Type} (reg : CommandRegistry H) (name : String) (func : H) :
    CommandRegistry H :=
  { reg with handlers := dictInsert reg.handlers (pyLower name) func }

/-- Embedding of `CommandRegistry.get` (`command_registry.py` lines
37-61): direct lookup of the lowercased name in `handlers`; on failure,
lookup in `aliases`, and — only when the found canonical name is truthy
(`if actual_name:`, line 54, false for the empty string) — lookup of the
lowercased canonical name in `handlers`; `None` when every path fails.
Stored handlers are Python callables, always truthy, so the source's
`if handler:` test is `Option.isSome` here. -/
def get {H : Type} (reg : CommandRegistry H) (name : String) : Option H :=
  match dictGet reg.handlers (pyLower name) with
  | some h => some h
  | none =>
    match dictGet reg.aliases (pyLower name) with
    | some actual => if actual = "" then none else dictGet reg.handlers (pyLower actual)
    | none => none

/-- Embedding of `CommandRegistry.add_alias` (`command_registry.py`
lines 63-72): stores the lowercased canonical name under the lowercased
alias, with no validation of either. -/
def add_alias {H : Type} (reg : CommandRegistry H) (a actual_name : String) :
    CommandRegistry H :=
  { reg with aliases := dictInsert reg.aliases (pyLower a) (pyLower actual_name) }

/-- Embedding of `CommandRegistry.has_command` (`command_registry.py`
lines 92-102): `name.lower() in self.handlers or name.lower() in
self.aliases`. -/
def has_command {H : Type} (reg : CommandRegistry H) (name : String) : Bool :=
  dictMem reg.handlers (pyLower name) || dictMem reg.aliases (pyLower name)

end CommandRegistry

/-- A one-character string holding the single-quote character. -/
def squoteStr : String := ⟨[squoteChar]⟩

/-- A one-character string holding the double-quote character. -/
def dquoteStr : String := ⟨[dquoteChar]⟩

/-- The reserved popup verbs of `menu_app.py` (the keys of the
`popup_commands` grouping dict and the skip list of
`_process_basic_commands`). -/
def popupVerbs : List String := ["popup-window", "popup-content", "popup-send-data"]

/-- Test of `cmd in ['popup-window', 'popup-content', 'popup-send-data']`. -/
def isPopupVerb (cmd : String) : Bool := popupVerbs.contains cmd

/-- Observable outcome of one engine phase: the indices of the
instructions whose handler was invoked, and the indices whose handler
raised (each such exception is caught and logged by the engine). -/
structure PhaseLog where
  dispatched : List Nat
  errors : List Nat
deriving DecidableEq

/-- The lowercased dispatch verb of an instruction: `toks[0].lower()`
(instructions produced by `load_script` are non-empty token lists;
`headD` supplies `""` for the vacuous empty case). -/
def verbOf (toks : List String) : String := pyLower (toks.headD "")

/-- Condition under which `_process_basic_commands` invokes a handler
for an instruction: its lowercased verb is not a popup verb and the
registry resolves it. -/
def instrDispatchCond {H : Type} (reg : CommandRegistry H) (toks : List String) : Bool :=
  !(isPopupVerb (verbOf toks)) &&
    (reg.get (verbOf toks)).isSome

/-- Embedding of the loop of `MenuApp._process_basic_commands`
(`menu_app.py` lines 140-155), indexed from `i`.  For each instruction:
lowercase the verb; skip popup verbs; resolve the handler through the
registry; if found, invoke it inside `try/except` — a raising handler
(modelled by the oracle `raisesAt`, since handler bodies are abstract GUI
callables) is logged and the loop continues.  Instructions loaded by
`load_script` are non-empty token lists; `headD` supplies `""` for the
vacuous empty case. -/
def processBasicAux {H : Type} (reg : CommandRegistry H) (raisesAt : Nat → Bool) :
    Nat → List (List String) → PhaseLog
  | _, [] => ⟨[], []⟩
  | i, toks :: rest =>
    let r := processBasicAux reg raisesAt (i + 1) rest
    let cmd := verbOf toks
    if isPopupVerb cmd then r
    else
      match reg.get cmd with
      | none => r
      | some _ =>
        ⟨i :: r.dispatched, if raisesAt i then i :: r.errors else r.errors⟩

/-- The basic-command phase over a whole instruction list. -/
def processBasicCommands {H : Type} (reg : CommandRegistry H) (raisesAt : Nat → Bool)
    (cmds : List (List String)) : PhaseLog :=
  processBasicAux reg raisesAt 0 cmds

/-- Whether `_process_basic_commands` invokes a handler for index `j` of
the instruction list. -/
def dispatchable {H : Type} (reg : CommandRegistry H) (cmds : List (List String))
    (j : Nat) : Bool :=
  match cmds.get? j with
  | some toks => instrDispatchCond reg toks
  | none => false

/-- Embedding of the grouping pass of `MenuApp._process_popup_commands`
(`menu_app.py` lines 169-203): one walk over the instruction list,
appending each instruction whose lowercased verb is a popup verb to that
verb's bucket, in script order. -/
def popupGroups : List (List String) →
    List (List String) × List (List String) × List (List String)
  | [] => ([], [], [])
  | toks :: rest =>
    let g := popupGroups rest
    let cmd := verbOf toks
    if cmd = "popup-window" then (toks :: g.1, g.2.1, g.2.2)
    else if cmd = "popup-content" then (g.1, toks :: g.2.1, g.2.2)
    else if cmd = "popup-send-data" then (g.1, g.2.1, toks :: g.2.2)
    else g

/-- Order in which `_process_popup_commands` dispatches popup
instructions: the whole `popup-window` bucket, then the `popup-content`
bucket, then the `popup-send-data` bucket (each dispatch is wrapped in
its own `try/except`, so this order is unconditional). -/
def popupDispatchOrder (cmds : List (List String)) : List (List String) :=
  (popupGroups cmds).1 ++ (popupGroups cmds).2.1 ++ (popupGroups cmds).2.2

/-- An instruction's lowercased verb equals `v`. -/
def verbIs (v : String) (toks : List String) : Bool := verbOf toks = v

/-- Loop body of `parse_parameters` (`helpers.py` lines 58-73) for one
token: a token without `=` is skipped; otherwise split at the first `=`,
strip whitespace from the key and quote characters from the value, and
store into the dict. -/
def paramStep (params : List (String × String)) (param : String) :
    List (String × String) :=
  match splitFirstEq param.data with
  | none => params
  | some kv => dictInsert params (pyStrip ⟨kv.1⟩) (pyStripQuotes ⟨kv.2⟩)

/-- The fold of `parse_parameters` over the whole token list, starting
from the empty dict. -/
def parse_parameters (param_list : List String) : List (String × String) :=
  param_list.foldl paramStep []

/-- The blocklisted tokens of `safe_eval_expression` (`helpers.py` line
133): `['import', 'exec', 'eval', 'open']`, checked by substring. -/
def dangerousOps : List String := ["import", "exec", "eval", "open"]

/-- Embedding of `safe_eval_expression` (`helpers.py` lines 112-154).
An empty expression returns `None`; an expression containing any
blocklisted token returns `None` before the evaluator runs; otherwise
the expression is handed to the host evaluator.  `evFn` abstracts the
remainder of the body (restricted-builtins `eval` over the preprocessed
context, with its enclosing `try/except` that converts any raise into
`None`), so `none` covers both a raised evaluation and a `None` value. -/
def safe_eval_expression {V : Type} (expression : String)
    (evFn : String → Option V) : Option V :=
  if expression = "" then none
  else if dangerousOps.any (fun op => containsSubstr expression op) then none
  else evFn expression

/-- The `HTTP_METHODS` constant of `utils/constants.py` line 7. -/
def HTTP_METHODS : List String := ["GET", "POST", "PUT", "DELETE", "PATCH", "HEAD", "OPTIONS"]

/-- Embedding of `validate_http_method` (`helpers.py` lines 157-167):
`method.upper() in HTTP_METHODS`. -/
def validate_http_method (method : String) : Bool :=
  HTTP_METHODS.contains (pyUpper method)

/-- Embedding of the response dict built by `create_response_template`
(`helpers.py` lines 280-301); `D` is the type of the `data` payload. -/
structure APIResponse (D : Type) where
  success : Bool
  message : String
  data : Option D
  status_code : Int
deriving DecidableEq

/-- Embedding of `create_response_template`. -/
def create_response_template {D : Type} (success : Bool) (message : String)
    (data : Option D) (status_code : Int) : APIResponse D :=
  { success := success, message := message, data := data, status_code := status_code }

/-- Embedding of one entry of `APIManager.apis`. -/
structure APIConfig where
  url : String
  key : Option String
  username : Option String
  password : Option String
  show_secret : Bool
deriving DecidableEq

/-- The formatted `ERROR_MESSAGES['API_NOT_FOUND']` of `constants.py`. -/
def API_NOT_FOUND_MSG (api_name : String) : String := "未找到API配置: " ++ api_name

/-- The formatted `ERROR_MESSAGES['INVALID_HTTP_METHOD']` of `constants.py`. -/
def INVALID_HTTP_METHOD_MSG (method : String) : String := "不支援的HTTP方法: " ++ method

/-- Embedding of `APIManager.call_api` (`api_manager.py` lines 112-190).
The source first validates the HTTP method (returning the 400
invalid-method response), then resolves the configuration by name via
`get_api` (returning the 404 not-found response when absent), and only
then enters the `try` block that builds the URL, headers and body and
performs the network call; that block is abstracted as `transport`
(URL/header/body construction plus `_make_request`/`_process_response`),
whose raise is caught by the enclosing `except` into the 500 response. -/
def call_api {D : Type} (apis : List (String × APIConfig))
    (transport : APIConfig → String → String → Option String →
      Option (List (String × String)) → Except String (APIResponse D))
    (api_name method path : String) (data_template : Option String)
    (context : Option (List (String × String))) : APIResponse D :=
  if !(validate_http_method method) then
    create_response_template false (INVALID_HTTP_METHOD_MSG method) none 400
  else
    match dictGet apis api_name with
    | none => create_response_template false (API_NOT_FOUND_MSG api_name) none 404
    | some api_config =>
      match transport api_config method path data_template context with
      | .ok resp => resp
      | .error e => create_response_template false ("API請求失敗: " ++ e) none 500

/-- Scanner modes of the POSIX shell-like tokenizer used by
`shlex.split` (quote and escape handling). -/
inductive ShlexMode
  | normal
  | escaped
  | single
  | double
  | escapedDouble
deriving DecidableEq

/-- The whitespace characters of `shlex` (` \t\r\n`). -/
def shlexWhitespace (c : Char) : Bool :=
  c.toNat = 32 ∨ c.toNat = 9 ∨ c.toNat = 13 ∨ c.toNat = 10

/-- Close the token in progress, if any, emitting it after `tokens`
(`None` means no token in progress; `Some []` is a quoted empty token). -/
def flushTok (tokens : List String) (cur : Option (List Char)) : List String :=
  match cur with
  | none => tokens
  | some acc => tokens ++ [⟨acc⟩]

/-- Append one character to the token in progress, starting one if
needed. -/
def appendCur (cur : Option (List Char)) (c : Char) : Option (List Char) :=
  some ((cur.getD []) ++ [c])

/-- Model of `shlex.split` in POSIX mode with whitespace splitting, the
primary path of `parse_command_line`: whitespace separates tokens;
single quotes protect everything up to the closing quote; double quotes
protect everything except `\x5c`-escapes of the double quote and the
backslash; a bare backslash escapes the next character; end of input in
an escape state raises `No escaped character` and inside a quote raises
`No closing quotation` (the `ValueError`s of `shlex`). -/
def shlexGo : List Char → ShlexMode → Option (List Char) → List String →
    Except String (List String)
  | [], .normal, cur, tokens => .ok (flushTok tokens cur)
  | [], .escaped, _, _ => .error "No escaped character"
  | [], .escapedDouble, _, _ => .error "No escaped character"
  | [], .single, _, _ => .error "No closing quotation"
  | [], .double, _, _ => .error "No closing quotation"
  | c :: rest, .normal, cur, tokens =>
    if shlexWhitespace c then shlexGo rest .normal none (flushTok tokens cur)
    else if c = squoteChar then shlexGo rest .single (some (cur.getD [])) tokens
    else if c = dquoteChar then shlexGo rest .double (some (cur.getD [])) tokens
    else if c = bslashChar then shlexGo rest .escaped (some (cur.getD [])) tokens
    else shlexGo rest .normal (appendCur cur c) tokens
  | c :: rest, .escaped, cur, tokens => shlexGo rest .normal (appendCur cur c) tokens
  | c :: rest, .single, cur, tokens =>
    if c = squoteChar then shlexGo rest .normal cur tokens
    else shlexGo rest .single (appendCur cur c) tokens
  | c :: rest, .double, cur, tokens =>
    if c = dquoteChar then shlexGo rest .normal cur tokens
    else if c = bslashChar then shlexGo rest .escapedDouble cur tokens
    else shlexGo rest .double (appendCur cur c) tokens
  | c :: rest, .escapedDouble, cur, tokens =>
    if c = dquoteChar ∨ c = bslashChar then
      shlexGo rest .double (appendCur cur c) tokens
    else shlexGo rest .double (appendCur (appendCur cur bslashChar) c) tokens

/-- Run the `shlex.split` model on a whole string. -/
def pyShlexSplit (s : String) : Except String (List String) :=
  shlexGo s.data .normal none []

/-- Embedding of the fallback scanner of `parse_command_line`
(`helpers.py` lines 230-255), the `except ValueError` branch: a
character-by-character scan tracking `in_quotes` and `quote_char`; an
opening quote is kept in the token and stripped when the quote closes;
a space outside quotes closes the token; at end of line any still-open
token is emitted as-is. -/
def fallbackGo : List Char → List String → List Char → Bool → Option Char → List String
  | [], tokens, cur, _, _ => if cur = [] then tokens else tokens ++ [⟨cur⟩]
  | c :: rest, tokens, cur, inQuotes, quoteChar =>
    if (c = dquoteChar ∨ c = squoteChar) ∧ ¬ inQuotes then
      fallbackGo rest tokens (cur ++ [c]) true (some c)
    else if some c = quoteChar ∧ inQuotes then
      fallbackGo rest (tokens ++ [pyStripChar ⟨cur ++ [c]⟩ c]) [] false quoteChar
    else if c = ' ' ∧ ¬ inQuotes then
      (if cur = [] then fallbackGo rest tokens [] inQuotes quoteChar
       else fallbackGo rest (tokens ++ [⟨cur⟩]) [] inQuotes quoteChar)
    else fallbackGo rest tokens (cur ++ [c]) inQuotes quoteChar

/-- The fallback scanner on a whole line. -/
def fallbackScan (line : String) : List String := fallbackGo line.data [] [] false none

/-- The preprocessing of `parse_command_line` before tokenizing: drop a
leading `menu ` prefix, then strip surrounding whitespace. -/
def preprocessLine (line : String) : String :=
  pyStrip (if "menu ".data.isPrefixOf line.data then ⟨line.data.drop 5⟩ else line)

/-- Embedding of `parse_command_line` (`helpers.py` lines 208-257):
strip the `menu ` prefix and surrounding whitespace; an empty line gives
no tokens; otherwise try `shlex.split`, and on its `ValueError` run the
permissive fallback scanner instead of raising. -/
def parse_command_line (line : String) : List String :=
  let line2 := preprocessLine line
  if line2 = "" then []
  else
    match pyShlexSplit line2 with
    | .ok toks => toks
    | .error _ => fallbackScan line2

theorem toNat_ofNat_small (n : Nat) (h : n < 55296) : (Char.ofNat n).toNat = n := by
  simp [Char.ofNat, Nat.isValidChar, h, Char.toNat, Char.ofNatAux, UInt32.toNat,
    BitVec.toNat_ofNatLt]

theorem pyCharLower_idem (c : Char) : pyCharLower (pyCharLower c) = pyCharLower c := by
  unfold pyCharLower
  by_cases h : 65 ≤ c.toNat ∧ c.toNat ≤ 90
  · rw [if_pos h]
    have hv : (Char.ofNat (c.toNat + 32)).toNat = c.toNat + 32 :=
      toNat_ofNat_small _ (by omega)
    rw [hv, if_neg (by omega)]
  · rw [if_neg h, if_neg h]

theorem pyLower_idem (s : String) : pyLower (pyLower s) = pyLower s := by
  unfold pyLower
  congr 1
  simp only [List.map_map]
  exact List.map_congr_left (fun c _ => by
    simp only [Function.comp_apply, pyCharLower_idem])

theorem dictGet_dictInsert_self {α : Type} (m : List (String × α)) (k : String) (v : α) :
    dictGet (dictInsert m k v) k = some v := by
  induction m with
  | nil => simp [dictInsert, dictGet]
  | cons p rest ih =>
    obtain ⟨k', v'⟩ := p
    by_cases h : k' = k
    · simp [dictInsert, dictGet, h]
    · simp [dictInsert, dictGet, h, ih]

theorem processBasicAux_cons {H : Type} (reg : CommandRegistry H) (raisesAt : Nat → Bool)
    (i : Nat) (toks : List String) (rest : List (List String)) :
    processBasicAux reg raisesAt i (toks :: rest) =
      if instrDispatchCond reg toks then
        ⟨i :: (processBasicAux reg raisesAt (i + 1) rest).dispatched,
          if raisesAt i then i :: (processBasicAux reg raisesAt (i + 1) rest).errors
          else (processBasicAux reg raisesAt (i + 1) rest).errors⟩
      else processBasicAux reg raisesAt (i + 1) rest := by
  simp only [processBasicAux]
  by_cases hp : isPopupVerb (verbOf toks) = true
  · have hc : instrDispatchCond reg toks = false := by
      simp only [instrDispatchCond, hp, Bool.not_true, Bool.false_and]
    rw [if_pos hp, hc]
    simp
  · have hp' : isPopupVerb (verbOf toks) = false := by
      simp only [Bool.not_eq_true] at hp
      exact hp
    rw [if_neg hp]
    cases hg : CommandRegistry.get reg (verbOf toks) with
    | none =>
      have hc : instrDispatchCond reg toks = false := by
        simp only [instrDispatchCond, hg, Option.isSome_none, Bool.and_false]
      rw [hc]
      simp
    | some f =>
      have hc : instrDispatchCond reg toks = true := by
        simp only [instrDispatchCond, hp', hg, Option.isSome_some, Bool.not_false,
          Bool.true_and]
      rw [hc]
      simp

@[simp]
theorem dispatchable_cons_zero {H : Type} (reg : CommandRegistry H)
    (toks : List String) (rest : List (List String)) :
    dispatchable reg (toks :: rest) 0 = instrDispatchCond reg toks := rfl

@[simp]
theorem dispatchable_cons_succ {H : Type} (reg : CommandRegistry H)
    (toks : List String) (rest : List (List String)) (k : Nat) :
    dispatchable reg (toks :: rest) (k + 1) = dispatchable reg rest k := rfl

theorem mem_dispatched_aux {H : Type} (reg : CommandRegistry H) (raisesAt : Nat → Bool)
    (cmds : List (List String)) :
    ∀ (i j : Nat),
      j ∈ (processBasicAux reg raisesAt i cmds).dispatched ↔
        ∃ k, j = i + k ∧ dispatchable reg cmds k = true := by
  induction cmds with
  | nil =>
    intro i j
    simp [processBasicAux, dispatchable]
  | cons toks rest ih =>
    intro i j
    rw [processBasicAux_cons]
    by_cases hc : instrDispatchCond reg toks = true
    · rw [if_pos hc]
      simp only [List.mem_cons]
      constructor
      · rintro (rfl | hmem)
        · exact ⟨0, by omega, by simpa using hc⟩
        · obtain ⟨k, hk, hdk⟩ := (ih (i + 1) j).1 hmem
          exact ⟨k + 1, by omega, by simpa using hdk⟩
      · rintro ⟨k, hk, hdk⟩
        cases k with
        | zero => left; omega
        | succ k =>
          right
          exact (ih (i + 1) j).2 ⟨k, by omega, by simpa using hdk⟩
    · rw [if_neg hc]
      rw [ih (i + 1) j]
      constructor
      · rintro ⟨k, hk, hdk⟩
        exact ⟨k + 1, by omega, by simpa using hdk⟩
      · rintro ⟨k, hk, hdk⟩
        cases k with
        | zero => exact absurd (by simpa using hdk) hc
        | succ k => exact ⟨k, by omega, by simpa using hdk⟩

theorem errors_eq_filter {H : Type} (reg : CommandRegistry H) (raisesAt : Nat → Bool)
    (cmds : List (List String)) :
    ∀ i : Nat,
      (processBasicAux reg raisesAt i cmds).errors =
        (processBasicAux reg raisesAt i cmds).dispatched.filter (fun j => raisesAt j) := by
  induction cmds with
  | nil => intro i; simp [processBasicAux]
  | cons toks rest ih =>
    intro i
    rw [processBasicAux_cons]
    by_cases hc : instrDispatchCond reg toks = true
    · rw [if_pos hc]
      by_cases hr : raisesAt i = true
      · simp [hr, List.filter, ih (i + 1)]
      · simp only [Bool.not_eq_true] at hr
        simp [hr, List.filter, ih (i + 1)]
    · rw [if_neg hc]
      exact ih (i + 1)

theorem dispatched_irrel {H : Type} (reg : CommandRegistry H)
    (raisesAt raisesAt' : Nat → Bool) (cmds : List (List String)) :
    ∀ i : Nat,
      (processBasicAux reg raisesAt i cmds).dispatched =
        (processBasicAux reg raisesAt' i cmds).dispatched := by
  induction cmds with
  | nil => intro i; simp [processBasicAux]
  | cons toks rest ih =>
    intro i
    rw [processBasicAux_cons, processBasicAux_cons]
    by_cases hc : instrDispatchCond reg toks = true
    · rw [if_pos hc, if_pos hc]
      by_cases hr : raisesAt i = true <;> by_cases hr' : raisesAt' i = true <;>
        simp [hr, hr', ih (i + 1)]
    · rw [if_neg hc, if_neg hc]
      exact ih (i + 1)

/-- C1.  Handler isolation in the basic-command phase: whenever the
handler invoked for instruction `N` raises (any exception oracle
`raisesAt` with `raisesAt N = true`), the exception is caught and logged
(`N` lands in the phase's error log), every later instruction whose
handler the engine would invoke is still dispatched, and the set of
dispatched instructions is exactly the one of a run in which no handler
raises at all — no instruction is skipped because of the failure and the
phase never aborts. -/
theorem basic_phase_handler_isolation {H : Type} (reg : CommandRegistry H)
    (raisesAt : Nat → Bool) (cmds : List (List String)) (N : Nat)
    (hd : dispatchable reg cmds N = true) (hr : raisesAt N = true) :
    N ∈ (processBasicCommands reg raisesAt cmds).errors ∧
      (∀ j, N < j → dispatchable reg cmds j = true →
        j ∈ (processBasicCommands reg raisesAt cmds).dispatched) ∧
      (processBasicCommands reg raisesAt cmds).dispatched =
        (processBasicCommands reg (fun _ => false) cmds).dispatched := by
  refine ⟨?_, ?_, ?_⟩
  · rw [processBasicCommands, errors_eq_filter, List.mem_filter]
    refine ⟨(mem_dispatched_aux reg raisesAt cmds 0 N).2 ⟨N, by omega, hd⟩, hr⟩
  · intro j _ hdj
    exact (mem_dispatched_aux reg raisesAt cmds 0 j).2 ⟨j, by omega, hdj⟩
  · exact dispatched_irrel reg raisesAt (fun _ => false) cmds 0

/-- Witness for C1 at a registry with one handler `alpha` and a script
of three `alpha` instructions, where the handler for instruction 1
raises: instruction 1 is logged and instruction 2 is still dispatched. -/
theorem basic_phase_handler_isolation_witness :
    1 ∈ (processBasicCommands (⟨[("alpha", 1)], []⟩ : CommandRegistry Nat)
          (fun n => n == 1) [["alpha"], ["alpha"], ["alpha"]]).errors ∧
      2 ∈ (processBasicCommands (⟨[("alpha", 1)], []⟩ : CommandRegistry Nat)
          (fun n => n == 1) [["alpha"], ["alpha"], ["alpha"]]).dispatched :=
  ⟨(basic_phase_handler_isolation ⟨[("alpha", 1)], []⟩ (fun n => n == 1)
      [["alpha"], ["alpha"], ["alpha"]] 1 (by decide) (by decide)).1,
    (basic_phase_handler_isolation ⟨[("alpha", 1)], []⟩ (fun n => n == 1)
      [["alpha"], ["alpha"], ["alpha"]] 1 (by decide) (by decide)).2.1 2
      (by decide) (by decide)⟩

theorem popupGroups_eq_filter (cmds : List (List String)) :
    popupGroups cmds =
      (cmds.filter (verbIs "popup-window"), cmds.filter (verbIs "popup-content"),
        cmds.filter (verbIs "popup-send-data")) := by
  induction cmds with
  | nil => rfl
  | cons toks rest ih =>
    simp only [popupGroups, ih]
    by_cases h1 : verbOf toks = "popup-window"
    · rw [if_pos h1]
      simp [List.filter_cons, verbIs, h1]
    · rw [if_neg h1]
      by_cases h2 : verbOf toks = "popup-content"
      · rw [if_pos h2]
        simp [List.filter_cons, verbIs, h2]
      · rw [if_neg h2]
        by_cases h3 : verbOf toks = "popup-send-data"
        · rw [if_pos h3]
          simp [List.filter_cons, verbIs, h3]
        · rw [if_neg h3]
          simp [List.filter_cons, verbIs, h1, h2, h3]

/-- C2.  Popup ordering: for every loaded instruction list, the popup
phase dispatches exactly the `popup-window` instructions first, then the
`popup-content` instructions, then the `popup-send-data` instructions,
each group in script order (`List.filter` keeps the original relative
order), regardless of how the three verbs were interleaved in the
script. -/
theorem popup_phase_fixed_verb_order (cmds : List (List String)) :
    popupDispatchOrder cmds =
      cmds.filter (verbIs "popup-window") ++ cmds.filter (verbIs "popup-content") ++
        cmds.filter (verbIs "popup-send-data") := by
  simp [popupDispatchOrder, popupGroups_eq_filter]

@[simp]
theorem add_alias_handlers {H : Type} (reg : CommandRegistry H) (a c : String) :
    (reg.add_alias a c).handlers = reg.handlers := rfl

@[simp]
theorem add_alias_aliases {H : Type} (reg : CommandRegistry H) (a c : String) :
    (reg.add_alias a c).aliases = dictInsert reg.aliases (pyLower a) (pyLower c) := rfl

theorem get_of_handlers {H : Type} (reg : CommandRegistry H) (name : String) (f : H)
    (h : dictGet reg.handlers (pyLower name) = some f) : reg.get name = some f := by
  unfold CommandRegistry.get
  rw [h]

theorem get_of_alias {H : Type} (reg : CommandRegistry H) (name actual : String)
    (h1 : dictGet reg.handlers (pyLower name) = none)
    (h2 : dictGet reg.aliases (pyLower name) = some actual)
    (h3 : actual ≠ "") :
    reg.get name = dictGet reg.handlers (pyLower actual) := by
  unfold CommandRegistry.get
  rw [h1, h2]
  show (if actual = "" then none else dictGet reg.handlers (pyLower actual)) = _
  rw [if_neg h3]

theorem get_of_alias_empty {H : Type} (reg : CommandRegistry H) (name : String)
    (h1 : dictGet reg.handlers (pyLower name) = none)
    (h2 : dictGet reg.aliases (pyLower name) = some "") :
    reg.get name = none := by
  unfold CommandRegistry.get
  rw [h1, h2]
  show (if ("" : String) = "" then (none : Option H)
      else dictGet reg.handlers (pyLower "")) = none
  rw [if_pos rfl]

/-- Counterexample to C3 as stated: in a registry whose `handlers` map
holds distinct handlers under `x` and `y`, registering the alias
`x -> y` leaves `get "x"` resolving to the direct handler of `x`, not to
the handler of `y`, so the (alias, canonical) pair `("x", "y")`
registered via `add_alias` has `resolve(alias) ≠ resolve(canonical)`. -/
theorem alias_resolution_shadowed_cex :
    ((CommandRegistry.add_alias ⟨[("x", 1), ("y", 2)], []⟩ "x" "y").get "x" ≠
        (CommandRegistry.add_alias (⟨[("x", 1), ("y", 2)], []⟩ : CommandRegistry Nat)
          "x" "y").get "y") ∧
      (CommandRegistry.add_alias (⟨[("x", 1), ("y", 2)], []⟩ : CommandRegistry Nat)
          "x" "y").get "x" = some 1 ∧
      (CommandRegistry.add_alias (⟨[("x", 1), ("y", 2)], []⟩ : CommandRegistry Nat)
          "x" "y").get "y" = some 2 := by
  decide

/-- C3, amended.  Alias resolution agrees for an (alias, canonical) pair
registered via `add_alias` provided the lowercased alias name is not
itself a key of the handlers map, the canonical name is non-empty (the
source's `if actual_name:` truthiness test never follows an alias whose
stored canonical is the falsy `""`), and the lowercased canonical name
is a handlers key: then, under any casing of the two names, `get alias`
and `get canonical` return the same handler object, namely the
canonical's handler.  (The shadowing hypothesis `h1` is forced by
`alias_resolution_shadowed_cex`; the registration hypothesis `h2` is
forced by the dangling-alias behaviour of `dangling_alias_divergence`;
the truthiness hypothesis `hc` is forced by `command_registry.py` line
54.) -/
theorem alias_resolution_agrees {H : Type} (reg : CommandRegistry H) (a c : String)
    (f : H) (h1 : dictGet reg.handlers (pyLower a) = none)
    (h2 : dictGet reg.handlers (pyLower c) = some f)
    (hc : pyLower c ≠ "") :
    (reg.add_alias a c).get a = some f ∧ (reg.add_alias a c).get c = some f ∧
      (reg.add_alias a c).get a = (reg.add_alias a c).get c := by
  have hga : (reg.add_alias a c).get a = some f := by
    rw [get_of_alias (reg.add_alias a c) a (pyLower c)
        (by rw [add_alias_handlers]; exact h1)
        (by rw [add_alias_aliases]; exact dictGet_dictInsert_self _ _ _) hc]
    rw [add_alias_handlers, pyLower_idem]
    exact h2
  have hgc : (reg.add_alias a c).get c = some f :=
    get_of_handlers _ _ _ (by rw [add_alias_handlers]; exact h2)
  exact ⟨hga, hgc, by rw [hga, hgc]⟩

/-- Witness for C3 (amended) at a registry holding only `y`, with the
alias registered as `add_alias("X", "Y")` (mixed casing). -/
theorem alias_resolution_agrees_witness :
    ((⟨[("y", 5)], []⟩ : CommandRegistry Nat).add_alias "X" "Y").get "X" = some 5 ∧
      ((⟨[("y", 5)], []⟩ : CommandRegistry Nat).add_alias "X" "Y").get "Y" = some 5 ∧
      ((⟨[("y", 5)], []⟩ : CommandRegistry Nat).add_alias "X" "Y").get "X" =
        ((⟨[("y", 5)], []⟩ : CommandRegistry Nat).add_alias "X" "Y").get "Y" :=
  alias_resolution_agrees ⟨[("y", 5)], []⟩ "X" "Y" 5 (by decide) (by decide) (by decide)

/-- C9.  Dangling-alias divergence: registering `add_alias(a, c)` when
neither the lowercased alias nor the lowercased canonical is a key of
the handlers map makes `has_command a` answer `true` (the alias key is
in the aliases map) while `get a` answers `None` (the alias chain ends
in the falsy-canonical test or in a failed handler lookup) — membership
checking and resolution disagree on the dangling alias. -/
theorem dangling_alias_divergence {H : Type} (reg : CommandRegistry H) (a c : String)
    (h1 : dictGet reg.handlers (pyLower a) = none)
    (h2 : dictGet reg.handlers (pyLower c) = none) :
    (reg.add_alias a c).has_command a = true ∧ (reg.add_alias a c).get a = none := by
  constructor
  · unfold CommandRegistry.has_command dictMem
    rw [add_alias_handlers, add_alias_aliases, h1, dictGet_dictInsert_self]
    rfl
  · by_cases hc : pyLower c = ""
    · exact get_of_alias_empty (reg.add_alias a c) a
        (by rw [add_alias_handlers]; exact h1)
        (by rw [add_alias_aliases, hc]; exact dictGet_dictInsert_self _ _ _)
    · rw [get_of_alias (reg.add_alias a c) a (pyLower c)
          (by rw [add_alias_handlers]; exact h1)
          (by rw [add_alias_aliases]; exact dictGet_dictInsert_self _ _ _) hc]
      rw [add_alias_handlers, pyLower_idem]
      exact h2

/-- Witness for C9: in an empty registry, the dangling alias
`add_alias("al", "tgt")` is visible to `has_command` but unresolvable by
`get`. -/
theorem dangling_alias_divergence_witness :
    ((⟨[], []⟩ : CommandRegistry Nat).add_alias "al" "tgt").has_command "al" = true ∧
      ((⟨[], []⟩ : CommandRegistry Nat).add_alias "al" "tgt").get "al" = none :=
  dangling_alias_divergence ⟨[], []⟩ "al" "tgt" (by decide) (by decide)

/-- C4.  Unknown remote API: a `call_api` naming an API that was never
registered, with a verb in the HTTP allow-list, returns the structured
not-found failure — success flag `false`, the formatted not-found
message and status code 404 — whatever the transport collaborator would
do (the transport is never consulted, so nothing can raise to the
caller). -/
theorem call_api_unknown_api_not_found {D : Type} (apis : List (String × APIConfig))
    (transport : APIConfig → String → String → Option String →
      Option (List (String × String)) → Except String (APIResponse D))
    (api_name method path : String) (data_template : Option String)
    (context : Option (List (String × String)))
    (h1 : validate_http_method method = true)
    (h2 : dictGet apis api_name = none) :
    call_api apis transport api_name method path data_template context =
      create_response_template false (API_NOT_FOUND_MSG api_name) none 404 := by
  simp [call_api, h1, h2]

/-- Witness for C4: empty API registry, method `GET`, name `nope`. -/
theorem call_api_unknown_api_not_found_witness :
    call_api ([] : List (String × APIConfig))
        (fun _ _ _ _ _ =>
          (Except.ok (create_response_template true "" none 200) :
            Except String (APIResponse Nat)))
        "nope" "GET" "/p" none none =
      create_response_template false (API_NOT_FOUND_MSG "nope") none 404 :=
  call_api_unknown_api_not_found _ _ "nope" "GET" "/p" none none (by decide) (by decide)

/-- Counterexample to C5 as stated: calling an API name that was never
registered together with the non-allow-listed verb `FROB` returns the
invalid-method failure with status code 400, not the claimed not-found
failure with status code 404 — the source validates the HTTP verb
before resolving the API name. -/
theorem call_api_check_order_cex :
    (call_api ([] : List (String × APIConfig))
        (fun _ _ _ _ _ =>
          (Except.ok (create_response_template true "" none 200) :
            Except String (APIResponse Nat)))
        "nope" "FROB" "/p" none none =
      create_response_template false (INVALID_HTTP_METHOD_MSG "FROB") none 400) ∧
      (call_api ([] : List (String × APIConfig))
          (fun _ _ _ _ _ =>
            (Except.ok (create_response_template true "" none 200) :
              Except String (APIResponse Nat)))
          "nope" "FROB" "/p" none none).status_code ≠ 404 := by
  decide

/-- C5, amended.  Remote-call check order: `call_api` validates the HTTP
verb against the allow-list first and resolves the API configuration by
name only afterwards; hence for every call naming an unregistered API
together with a verb outside the allow-list, the returned structured
failure is the invalid-method one (status 400), not the not-found
one. -/
theorem call_api_method_checked_first {D : Type} (apis : List (String × APIConfig))
    (transport : APIConfig → String → String → Option String →
      Option (List (String × String)) → Except String (APIResponse D))
    (api_name method path : String) (data_template : Option String)
    (context : Option (List (String × String)))
    (h1 : dictGet apis api_name = none)
    (h2 : validate_http_method method = false) :
    call_api apis transport api_name method path data_template context =
      create_response_template false (INVALID_HTTP_METHOD_MSG method) none 400 := by
  simp [call_api, h2]

/-- Witness for C5 (amended): empty registry and verb `FROB`. -/
theorem call_api_method_checked_first_witness :
    call_api ([] : List (String × APIConfig))
        (fun _ _ _ _ _ =>
          (Except.ok (create_response_template true "" none 200) :
            Except String (APIResponse Nat)))
        "ghost" "FROB" "/q" none none =
      create_response_template false (INVALID_HTTP_METHOD_MSG "FROB") none 400 :=
  call_api_method_checked_first _ _ "ghost" "FROB" "/q" none none (by decide) (by decide)

/-- C6.  Unsafe expression rejection: any expression containing one of
the blocklisted tokens `import`, `exec`, `eval`, `open` makes
`safe_eval_expression` return the null result, and the result does not
depend on the host evaluator — the evaluator is never consulted, so no
side effect is performed and nothing can raise. -/
theorem dangerous_expression_rejected {V : Type} (expression : String)
    (evFn evFn2 : String → Option V)
    (h : dangerousOps.any (fun op => containsSubstr expression op) = true) :
    safe_eval_expression expression evFn = none ∧
      safe_eval_expression expression evFn =
        safe_eval_expression expression evFn2 := by
  unfold safe_eval_expression
  by_cases he : expression = ""
  · rw [if_pos he, if_pos he]
    exact ⟨rfl, rfl⟩
  · rw [if_neg he, if_neg he, if_pos h, if_pos h]
    exact ⟨rfl, rfl⟩

/-- Witness for C6 at the claim's expression `__import__('os').system('x')`
(built from code points to quote it literally), for two evaluators that
would return different values if consulted. -/
theorem dangerous_expression_rejected_witness :
    safe_eval_expression
        ("__import__(" ++ squoteStr ++ "os" ++ squoteStr ++ ").system(" ++
          squoteStr ++ "x" ++ squoteStr ++ ")")
        (fun _ => some 7) = none ∧
      safe_eval_expression
          ("__import__(" ++ squoteStr ++ "os" ++ squoteStr ++ ").system(" ++
            squoteStr ++ "x" ++ squoteStr ++ ")")
          (fun _ => some 7) =
        safe_eval_expression
          ("__import__(" ++ squoteStr ++ "os" ++ squoteStr ++ ").system(" ++
            squoteStr ++ "x" ++ squoteStr ++ ")")
          (fun _ => some (8 : Nat)) :=
  dangerous_expression_rejected _ (fun _ => some 7) (fun _ => some 8) (by decide)

theorem splitFirstEq_of_not_mem (t : List Char) (h : t.contains '=' = false) :
    splitFirstEq t = none := by
  induction t with
  | nil => rfl
  | cons c rest ih =>
    simp only [List.contains_cons, Bool.or_eq_false_iff, beq_eq_false_iff_ne,
      ne_eq] at h
    simp [splitFirstEq, Ne.symm h.1, ih h.2]

theorem splitFirstEq_append (k v : List Char) (h : k.contains '=' = false) :
    splitFirstEq (k ++ '=' :: v) = some (k, v) := by
  induction k with
  | nil => simp [splitFirstEq]
  | cons c rest ih =>
    simp only [List.contains_cons, Bool.or_eq_false_iff, beq_eq_false_iff_ne,
      ne_eq] at h
    simp [splitFirstEq, Ne.symm h.1, ih h.2]

/-- C7.  Parameter parsing: the concrete example
`parse_parameters(["x=10","y=20","label=\x22A=B\x22"])` yields
`{"x":"10","y":"20","label":"A=B"}`; inserting a token without `=`
anywhere in a token list leaves the result unchanged (ignored, not an
error); and a token `k=v` whose key part holds no `=` is split at that
first `=` only, so the value may contain `=`, with surrounding quote
characters stripped from the value and whitespace from the key. -/
theorem parse_parameters_spec :
    parse_parameters ["x=10", "y=20", "label=" ++ dquoteStr ++ "A=B" ++ dquoteStr] =
        [("x", "10"), ("y", "20"), ("label", "A=B")] ∧
      (∀ (pre post : List String) (tok : String), tok.data.contains '=' = false →
        parse_parameters (pre ++ tok :: post) = parse_parameters (pre ++ post)) ∧
      (∀ (k v : List Char), k.contains '=' = false →
        parse_parameters [⟨k ++ '=' :: v⟩] = [(pyStrip ⟨k⟩, pyStripQuotes ⟨v⟩)]) := by
  refine ⟨by decide, ?_, ?_⟩
  · intro pre post tok h
    unfold parse_parameters
    rw [List.foldl_append, List.foldl_append, List.foldl_cons]
    have hstep : paramStep (List.foldl paramStep [] pre) tok =
        List.foldl paramStep [] pre := by
      unfold paramStep
      rw [splitFirstEq_of_not_mem tok.data h]
    rw [hstep]
  · intro k v h
    unfold parse_parameters
    rw [List.foldl_cons, List.foldl_nil]
    unfold paramStep
    rw [show (String.mk (k ++ '=' :: v)).data = k ++ '=' :: v from rfl,
      splitFirstEq_append k v h]
    rfl

/-- Witness for C7's quantified parts: the bare token `bare` is ignored
between parameters, and `label=A=B` splits at the first `=` only. -/
theorem parse_parameters_spec_witness :
    parse_parameters (["x=1"] ++ "bare" :: ["y=2"]) =
        parse_parameters (["x=1"] ++ ["y=2"]) ∧
      parse_parameters [⟨"label".data ++ '=' :: "A=B".data⟩] =
        [(pyStrip ⟨"label".data⟩, pyStripQuotes ⟨"A=B".data⟩)] :=
  ⟨parse_parameters_spec.2.1 ["x=1"] ["y=2"] "bare" (by decide),
    parse_parameters_spec.2.2 "label".data "A=B".data (by decide)⟩

/-- C8.  Tokenizer quoting: the line
`control button b1 text=\x22Hello World\x22 x=10` tokenizes to exactly
`["control","button","b1","text=Hello World","x=10"]` (quotes removed,
the embedded space kept inside one token); on the malformed line
`ab \x22cd ef` (unterminated quote) the permissive fallback still
produces tokens and closes the open token at end of line; and on every
line on which the `shlex` path raises `ValueError`, `parse_command_line`
returns the fallback scan's tokens instead of raising. -/
theorem tokenizer_quoting_spec :
    parse_command_line
        ("control button b1 text=" ++ dquoteStr ++ "Hello World" ++ dquoteStr ++
          " x=10") =
        ["control", "button", "b1", "text=Hello World", "x=10"] ∧
      parse_command_line ("ab " ++ dquoteStr ++ "cd ef") =
          ["ab", dquoteStr ++ "cd ef"] ∧
      (∀ (line e : String), pyShlexSplit (preprocessLine line) = Except.error e →
        parse_command_line line = fallbackScan (preprocessLine line)) := by
  refine ⟨by decide, by decide, ?_⟩
  intro line e h
  by_cases hline : preprocessLine line = ""
  · rw [hline] at h
    simp [pyShlexSplit, shlexGo, flushTok] at h
  · simp only [parse_command_line]
    rw [if_neg hline, h]

/-- Witness for C8's quantified part at the unterminated-quote line
`ab \x22cd`, on which `shlex` raises `No closing quotation`. -/
theorem tokenizer_quoting_spec_witness :
    parse_command_line ("ab " ++ dquoteStr ++ "cd") =
      fallbackScan (preprocessLine ("ab " ++ dquoteStr ++ "cd")) :=
  tokenizer_quoting_spec.2.2 ("ab " ++ dquoteStr ++ "cd") "No closing quotation" rfl

